import Mathlib

/-!
A shallow embedding of `mtapi/mtapi.py` (the `Mtapi` class): the station data
model, the `_update` snapshot rebuild, the alert-attachment pass, and the
query layer (`get_by_id`, `get_by_route`, `get_by_point`, `get_routes`,
`is_expired`).  Times are modelled as integer seconds; Python exceptions
(KeyError, IndexError, unbound locals, TypeError) are modelled as
`Except.error ()`; Python dicts are insertion-ordered association lists and
Python sets are `Finset String`.
-/

set_option maxHeartbeats 1000000

namespace MtapiModel

/-- One entry of a train list: the dict `{'route': ..., 'time': ...}` appended
by `_Station.add_train`. -/
structure Train where
  route : String
  time : Int
deriving DecidableEq

/-- The `'type'` field of a station alert: `'stop'` or `'route'`. -/
inductive AlertType where
  | stop
  | route
deriving DecidableEq

/-- One entry of a station alert list: `{'type': ..., 'header_text': ...}`. -/
structure Alert where
  type : AlertType
  header_text : String
deriving DecidableEq

/-- Values stored in the dynamic dict records the code passes around
(catalog json fields and the fields written by `_Station.serialize`). -/
inductive Value where
  | str : String → Value
  | num : Int → Value
  | onum : Option Int → Value
  | pair : Int → Int → Value
  | strList : List String → Value
  | strSet : List String → Value
  | trains : List Train → Value
  | alerts : List Alert → Value
deriving DecidableEq

/-- Python dict read `d[k]` (as an `Option`; `none` models KeyError). -/
def dictGet (d : List (String × Value)) (k : String) : Option Value :=
  List.lookup k d

/-- Python dict write `d[k] = v`: replace the value when the key is present,
append the pair otherwise (insertion order preserved). -/
def dictSet (d : List (String × Value)) (k : String) (v : Value) : List (String × Value) :=
  match List.lookup k d with
  | some _ => d.map (fun p => if p.1 == k then (p.1, v) else p)
  | none => d ++ [(k, v)]

/-- Python `d.update(src)`: write every key/value pair of `src` into `d`. -/
def dictUpdate (d src : List (String × Value)) : List (String × Value) :=
  src.foldl (fun acc p => dictSet acc p.1 p.2) d

/-- Python `set.add`: a set is modelled as a duplicate-free list whose order
stands in for the unspecified iteration order of a Python set. -/
def setAdd (l : List String) (x : String) : List String :=
  if x ∈ l then l else l ++ [x]

/-- Python `str.upper()`: uppercase every character (as `String.toUpper`
does), written over the character list so that it evaluates by `rfl`. -/
def str_upper (s : String) : String :=
  String.mk (s.toList.map Char.toUpper)

/-- Lexicographic comparison of character lists by code point (the order
Python uses to compare strings), written by structural recursion so that it
evaluates by `rfl`. -/
def chars_le : List Char → List Char → Bool
  | [], _ => true
  | _ :: _, [] => false
  | a :: as, b :: bs =>
    if a.toNat < b.toNat then true
    else if b.toNat < a.toNat then false
    else chars_le as bs

/-- Python `a <= b` on strings: lexicographic by code point. -/
def str_le (a b : String) : Bool :=
  chars_le a.toList b.toList

/-- `Mtapi._Station`: the static catalog record `json` plus the per-refresh
train/route/alert overlay.  The `trains` dict always has exactly the keys
`'N'` and `'S'`, modelled as two list fields. -/
structure Station where
  json : List (String × Value)
  trainsN : List Train
  trainsS : List Train
  routes : List String
  last_update : Option Int
  alerts : List Alert
deriving DecidableEq

/-- `_Station.clear_train_data`. -/
def clear_train_data (st : Station) : Station :=
  { st with trainsN := [], trainsS := [], routes := [], last_update := none, alerts := [] }

/-- `_Station.add_train`: add the route id to `routes`, append the train to the
list for `direction`, and record the feed timestamp.  A direction other than
`'N'`/`'S'` raises KeyError on the `trains` dict, modelled as `Except.error`. -/
def add_train (st : Station) (route_id : String) (direction : Char)
    (train_time feed_time : Int) : Except Unit Station :=
  let st := { st with routes := setAdd st.routes route_id }
  if direction == 'N' then
    Except.ok { st with
      trainsN := st.trainsN ++ [{ route := route_id, time := train_time }],
      last_update := some feed_time }
  else if direction == 'S' then
    Except.ok { st with
      trainsS := st.trainsS ++ [{ route := route_id, time := train_time }],
      last_update := some feed_time }
  else Except.error ()

/-- `_Station.add_alert`: append the alert unless one with the same header
text is already present. -/
def add_alert (st : Station) (alert_type : AlertType) (alert_text : String) : Station :=
  if st.alerts.any (fun a => a.header_text == alert_text) then st
  else { st with alerts := st.alerts ++ [{ type := alert_type, header_text := alert_text }] }

/-- `_Station.sort_trains`: sort each direction list ascending by time
(Python sorted is a stable merge sort) and truncate to `max_trains`. -/
def sort_trains (max_trains : Nat) (st : Station) : Station :=
  { st with
    trainsS := (st.trainsS.mergeSort (fun a b => decide (a.time ≤ b.time))).take max_trains,
    trainsN := (st.trainsN.mergeSort (fun a b => decide (a.time ≤ b.time))).take max_trains }

/-- The dict built by `_Station.serialize` before the catalog merge. -/
def serialize_out (st : Station) : List (String × Value) :=
  [("service_alerts", Value.alerts st.alerts),
   ("N", Value.trains st.trainsN),
   ("S", Value.trains st.trainsS),
   ("routes", Value.strSet st.routes),
   ("last_update", Value.onum st.last_update)]

/-- `_Station.serialize`: build the derived record, then `out.update(self.json)`
merges every static catalog field over it. -/
def serialize (st : Station) : List (String × Value) :=
  dictUpdate (serialize_out st) st.json

/-! Decoded feed entities.  `mtaproto` is an external collaborator; these
records carry exactly the fields `_update` reads off the decoded objects
(validity flag, direction, route id, stop-time updates, alert periods,
translations, informed entities, feed timestamp). -/

/-- One stop-time update of a trip entity. -/
structure StopTimeUpdate where
  time : Int
  stop_id : String
deriving DecidableEq

/-- One decoded trip entity. -/
structure TripEntity where
  is_valid : Bool
  direction : String
  route_id : String
  stop_time_updates : List StopTimeUpdate
deriving DecidableEq

/-- One decoded trip feed (`FeedResponse`): entities plus the feed timestamp. -/
structure TripFeed where
  timestamp : Int
  entity : List TripEntity
deriving DecidableEq

/-- One translation of an alert header text. -/
structure Translation where
  language : String
  text : String
deriving DecidableEq

/-- One active period of an alert.  In the protobuf an unset end is `0`
(falsy), which the code treats as an open-ended period. -/
structure ActivePeriod where
  start : Int
  endTime : Int
deriving DecidableEq

/-- One informed-entity reference of an alert; `none` models an unset
protobuf field (`HasField` false). -/
structure InformedEntity where
  stop_id : Option String
  route_id : Option String
deriving DecidableEq

/-- One decoded alert entity. -/
structure AlertEntity where
  active_period : List ActivePeriod
  translation : List Translation
  informed_entity : List InformedEntity
deriving DecidableEq

/-- The feed environment of one rebuild: the alerts feed and the trip feeds,
in feed-URL order; `none` models a failed fetch/decode (`_load_mta_feed`
returning `False`). -/
structure FeedEnv where
  alerts_feed : Option (List AlertEntity)
  trip_feeds : List (Option TripFeed)

/-- `Mtapi._is_alert_currently_active`: some active period contains the
current timestamp, where an end of `0` (unset) is open-ended. -/
def is_alert_currently_active (entity : AlertEntity) (current_timestamp : Int) : Bool :=
  entity.active_period.any (fun period =>
    decide (period.start ≤ current_timestamp) &&
      (period.endTime == 0 || decide (period.endTime ≥ current_timestamp)))

/-- The loop of `Mtapi._get_alert_text`.  The accumulator models the local
`english_text`, which Python rebinds to `None` at the top of every iteration,
so only the last iteration's value survives the loop; returning it when the
loop body never ran is an unbound-local error, modelled as `Except.error`. -/
def get_alert_text_go (language : String) :
    List Translation → Option (Option String) → Except Unit (Option String)
  | [], none => Except.error ()
  | [], some english_text => Except.ok english_text
  | t :: rest, _ =>
    if t.language == language then Except.ok (some t.text)
    else if t.language == "en" then get_alert_text_go language rest (some (some t.text))
    else get_alert_text_go language rest (some none)

/-- `Mtapi._get_alert_text`: return the translation in the requested language,
else whatever is left in `english_text` after the loop. -/
def get_alert_text (entity : AlertEntity) (language : String) : Except Unit (Option String) :=
  get_alert_text_go language entity.translation none

/-- `Mtapi._get_station_routes`: the set of route ids appearing in the
station's train lists (dict values are iterated in insertion order N, S; the
set comprehension is modelled as list deduplication). -/
def get_station_routes (station : Station) : List String :=
  ((station.trainsN ++ station.trainsS).map (fun t => t.route)).dedup

/-- Python `s.rstrip(chars)`: remove every trailing character that belongs to
`chars`. -/
def rstrip (s : String) (chars : List Char) : String :=
  String.mk ((s.toList.reverse.dropWhile (fun c => chars.contains c)).reverse)

/-- `Mtapi._alert_applies_to_stop`: the informed entity names a stop id equal
to one of the station's stop ids, either exactly or after `rstrip('NS')`. -/
def alert_applies_to_stop (informed : InformedEntity) (station_stops : List String) : Bool :=
  match informed.stop_id with
  | none => false
  | some alert_stop =>
    let alert_stop_base := rstrip alert_stop ['N', 'S']
    station_stops.any (fun stop => stop == alert_stop || stop == alert_stop_base)

/-- The route check of the informed-entity loop in `_update`:
`informed.HasField('route_id') and informed.route_id in station_routes`. -/
def route_matches (informed : InformedEntity) (station_routes : List String) : Bool :=
  match informed.route_id with
  | some r => decide (r ∈ station_routes)
  | none => false

/-- The informed-entity loop of `_update` (lines 249-258) for one alert and
one station: the first reference that stop-matches attaches a `stop`-typed
alert, else the first that route-matches attaches a `route`-typed alert, and
the loop breaks at the first match. -/
def informed_entity_loop (station_stops : List String) (station_routes : List String) :
    List InformedEntity → Option AlertType
  | [] => none
  | informed :: rest =>
    if alert_applies_to_stop informed station_stops then some AlertType.stop
    else if route_matches informed station_routes then some AlertType.route
    else informed_entity_loop station_stops station_routes rest

/-- `station['stops']` read as an iterable of stop ids; a missing or
non-iterable field raises, modelled as `Except.error`. -/
def station_stops (st : Station) : Except Unit (List String) :=
  match dictGet st.json "stops" with
  | some (Value.strList l) => Except.ok l
  | _ => Except.error ()

/-- The body of the per-alert part of `_update` for one station: derive the
header text (skipping the alert when it is falsy, that is `None` or the empty
string), then run the informed-entity loop and attach at most one alert.
`station['stops']` is read once here; the source reads it at each stop check
inside the loop, with the same value. -/
def apply_alert_entity (station_routes : List String) (st : Station)
    (alert_entity : AlertEntity) : Except Unit Station := do
  let alert_text ← get_alert_text alert_entity "en-html"
  match alert_text with
  | none => Except.ok st
  | some text =>
    if text == "" then Except.ok st
    else do
      let stops ← station_stops st
      match informed_entity_loop stops station_routes alert_entity.informed_entity with
      | some ty => Except.ok (add_alert st ty text)
      | none => Except.ok st

/-- The per-station alert pass of `_update` (lines 241-258): compute the
served-route set once, then process every active alert entity in feed order. -/
def apply_alerts_to_station (service_alerts : List AlertEntity) (station : Station) :
    Except Unit Station :=
  let station_routes := get_station_routes station
  service_alerts.foldlM (apply_alert_entity station_routes) station

/-- The `for station_id, station in stations.items()` alert loop of `_update`. -/
def attach_alerts (service_alerts : List AlertEntity) (stations : List (String × Station)) :
    Except Unit (List (String × Station)) :=
  stations.mapM (fun p => do
    let st ← apply_alerts_to_station service_alerts p.2
    Except.ok (p.1, st))

/-- The per-stop-time-update decision of `_update` (lines 214-232): skip the
update when its predicted time is before `now` or after
`now + max_minutes` minutes, or when its stop id is unknown; otherwise return
the id of the station it contributes a train to. -/
def process_stop_time_update (stops_to_stations : List (String × String))
    (now max_minutes : Int) (u : StopTimeUpdate) : Option String :=
  if u.time < now ∨ u.time > now + 60 * max_minutes then none
  else List.lookup u.stop_id stops_to_stations

/-- Python `self._stations[station_id]` on the working copy: KeyError when
absent. -/
def lookupStation (stations : List (String × Station)) (id : String) :
    Except Unit Station :=
  match List.lookup id stations with
  | some st => Except.ok st
  | none => Except.error ()

/-- Assignment of a rebuilt station back into the working dict (the source
mutates the station object in place; keys never change). -/
def setStation (stations : List (String × Station)) (id : String) (st : Station) :
    List (String × Station) :=
  stations.map (fun p => if p.1 == id then (p.1, st) else p)

/-- `defaultdict(set)` mutation `routes[route_id].add(stop_id)`: extend the
entry when the key is present, otherwise insert the key with a one-element
set. -/
def ddAdd (d : List (String × List String)) (k v : String) :
    List (String × List String) :=
  match List.lookup k d with
  | some _ => d.map (fun p => if p.1 == k then (p.1, setAdd p.2 v) else p)
  | none => d ++ [(k, setAdd [] v)]

/-- `defaultdict(set)` read `routes[route]`: return the stored set, inserting
the key with an empty set when it is absent (the mutated dict is returned as
well). -/
def ddLookup (d : List (String × List String)) (k : String) :
    List String × List (String × List String) :=
  match List.lookup k d with
  | some s => (s, d)
  | none => ([], d ++ [(k, [])])

/-- Python `trip.direction[0]`: IndexError on an empty string. -/
def first_char (s : String) : Except Unit Char :=
  match s.toList with
  | [] => Except.error ()
  | c :: _ => Except.ok c

/-- One iteration of the stop-time update loop of `_update` (lines 214-232):
a skipped update leaves the accumulator unchanged; a contributing one adds a
train to the owning station and extends the route index entry of the trip's
route with the stop id. -/
def process_stop_step (stops_to_stations : List (String × String))
    (now max_minutes : Int) (route_id : String) (direction : Char) (feed_timestamp : Int)
    (acc : List (String × Station) × List (String × List String)) (u : StopTimeUpdate) :
    Except Unit (List (String × Station) × List (String × List String)) :=
  match process_stop_time_update stops_to_stations now max_minutes u with
  | none => Except.ok acc
  | some station_id => do
    let st ← lookupStation acc.1 station_id
    let st2 ← add_train st route_id direction u.time feed_timestamp
    Except.ok (setStation acc.1 station_id st2, ddAdd acc.2 route_id u.stop_id)

/-- The per-trip-entity part of `_update` (lines 205-232): skip invalid trips,
extract the direction character and upper-cased route id, then process every
stop-time update. -/
def process_trip_entity (stops_to_stations : List (String × String))
    (now max_minutes feed_timestamp : Int)
    (acc : List (String × Station) × List (String × List String)) (entity : TripEntity) :
    Except Unit (List (String × Station) × List (String × List String)) :=
  if !entity.is_valid then Except.ok acc
  else do
    let direction ← first_char entity.direction
    let route_id := str_upper entity.route_id
    entity.stop_time_updates.foldlM
      (process_stop_step stops_to_stations now max_minutes route_id direction feed_timestamp)
      acc

/-- One iteration of the feed loop of `_update`: a failed fetch is skipped,
otherwise every entity of the decoded feed is processed. -/
def process_feed (stops_to_stations : List (String × String)) (now max_minutes : Int)
    (acc : List (String × Station) × List (String × List String)) (feed : Option TripFeed) :
    Except Unit (List (String × Station) × List (String × List String)) :=
  match feed with
  | none => Except.ok acc
  | some mta_data =>
    mta_data.entity.foldlM
      (process_trip_entity stops_to_stations now max_minutes mta_data.timestamp) acc

/-- The constructor arguments of `Mtapi` that configure a rebuild and the
expiry policy. -/
structure Config where
  max_trains : Nat
  max_minutes : Int
  expires_seconds : Int
  threaded : Bool
  service_alerts_enabled : Bool

/-- The mutable state of an `Mtapi` instance: the station dict, the static
stop-to-station index, the route index, and the build timestamp. -/
structure MtapiState where
  stations : List (String × Station)
  stops_to_stations : List (String × String)
  routes : List (String × List String)
  last_update : Int
deriving DecidableEq

/-- The service-alert fetch-and-filter prelude of `_update` (lines 184-195):
the active alert entities, or `[]` when alerts are disabled or the fetch
failed. -/
def active_service_alerts (cfg : Config) (env : FeedEnv) (now : Int) : List AlertEntity :=
  if cfg.service_alerts_enabled then
    match env.alerts_feed with
    | some entities => entities.filter (fun e => is_alert_currently_active e now)
    | none => []
  else []

/-- `Mtapi._update`: rebuild the snapshot from scratch.  A working copy of the
stations is cleared, active service alerts are filtered at `now`, every trip
feed is folded into train lists and a fresh route index, train lists are
sorted and truncated, alerts are attached, and the new state is published
with build timestamp `now`.  An uncaught per-record exception (modelled as
`Except.error`) aborts the rebuild before publication. -/
def update (cfg : Config) (env : FeedEnv) (now : Int) (s : MtapiState) :
    Except Unit MtapiState := do
  let stations0 := s.stations.map (fun p => (p.1, clear_train_data p.2))
  let service_alerts := active_service_alerts cfg env now
  let acc ← env.trip_feeds.foldlM (process_feed s.stops_to_stations now cfg.max_minutes)
    (stations0, ([] : List (String × List String)))
  let stations1 := acc.1.map (fun p => (p.1, sort_trains cfg.max_trains p.2))
  let stations2 ←
    if cfg.service_alerts_enabled && !service_alerts.isEmpty then
      attach_alerts service_alerts stations1
    else Except.ok stations1
  Except.ok { stations := stations2, stops_to_stations := s.stops_to_stations,
              routes := acc.2, last_update := now }

/-- `Mtapi.is_expired`.  `restart_if_dead` is the result of the threader
health check, an external collaborator; in passive mode
(`threaded = false`) only the expiry window matters, and a zero (falsy)
`expires_seconds` disables expiry. -/
def is_expired (cfg : Config) (restart_if_dead : Bool) (now last_update : Int) : Bool :=
  if cfg.threaded && restart_if_dead then false
  else if cfg.expires_seconds != 0 then decide (now - last_update > cfg.expires_seconds)
  else false

/-- `Mtapi.get_routes`: the keys of the live route index. -/
def get_routes (s : MtapiState) : List String :=
  s.routes.map (fun p => p.1)

/-- The body of `Mtapi.get_by_id` after the freshness check: serialize the
station for each requested id, KeyError (modelled as `Except.error`) on an
unknown id. -/
def get_by_id_core (s : MtapiState) (ids : List String) :
    Except Unit (List (List (String × Value))) :=
  ids.mapM (fun k => do
    let st ← lookupStation s.stations k
    Except.ok (serialize st))

/-- `Mtapi.get_by_id`: run a synchronous rebuild first when the snapshot is
expired.  The second component counts the rebuilds triggered by this call. -/
def get_by_id (cfg : Config) (env : FeedEnv) (restart_if_dead : Bool) (now : Int)
    (s : MtapiState) (ids : List String) :
    Except Unit (List (List (String × Value)) × MtapiState) × Nat :=
  if is_expired cfg restart_if_dead now s.last_update then
    (do
      let s2 ← update cfg env now s
      let out ← get_by_id_core s2 ids
      Except.ok (out, s2), 1)
  else
    (do
      let out ← get_by_id_core s ids
      Except.ok (out, s), 0)

/-- `x['name']` of a serialized record as the sort key of `get_by_route`
(the match arm failing models KeyError / an unorderable key). -/
def name_key (x : List (String × Value)) :
    Except Unit (String × List (String × Value)) :=
  match dictGet x "name" with
  | some (Value.str n) => Except.ok (n, x)
  | _ => Except.error ()

def sort_by_name (out : List (List (String × Value))) :
    Except Unit (List (List (String × Value))) := do
  let keyed ← out.mapM name_key
  Except.ok ((keyed.mergeSort (fun a b => str_le a.1 b.1)).map (fun p => p.2))

/-- Python `self._stops_to_stations[k]`: KeyError when absent. -/
def lookup_stop_station (stops_to_stations : List (String × String)) (k : String) :
    Except Unit String :=
  match List.lookup k stops_to_stations with
  | some sid => Except.ok sid
  | none => Except.error ()

/-- The comprehension body of `get_by_route`:
`self._stations[self._stops_to_stations[k]].serialize()`. -/
def serialize_stop (s : MtapiState) (k : String) :
    Except Unit (List (String × Value)) := do
  let station_id ← lookup_stop_station s.stops_to_stations k
  let st ← lookupStation s.stations station_id
  Except.ok (serialize st)

/-- The body of `Mtapi.get_by_route` after the freshness check: read the stop
set out of the route index (a `defaultdict` read, which inserts a missing
key), serialize the owning station of every stop id, and sort by station
name.  Python iterates the stop set in an unspecified order; the model
iterates the set in its insertion order. -/
def get_by_route_core (s : MtapiState) (route : String) :
    Except Unit (List (List (String × Value)) × MtapiState) := do
  let looked := ddLookup s.routes route
  let out ← looked.1.mapM (serialize_stop s)
  let sorted ← sort_by_name out
  Except.ok (sorted, { s with routes := looked.2 })

/-- `Mtapi.get_by_route`: upper-case the requested route id, run a synchronous
rebuild first when the snapshot is expired, then query the route index.  The
second component counts the rebuilds triggered by this call. -/
def get_by_route (cfg : Config) (env : FeedEnv) (restart_if_dead : Bool) (now : Int)
    (s : MtapiState) (route : String) :
    Except Unit (List (List (String × Value)) × MtapiState) × Nat :=
  let route := str_upper route
  if is_expired cfg restart_if_dead now s.last_update then
    (do
      let s2 ← update cfg env now s
      get_by_route_core s2 route, 1)
  else
    (get_by_route_core s route, 0)

/-- The squared euclidean distance.  The source sorts by
`math.sqrt((dx)**2 + (dy)**2)`; the square root is strictly monotone on
nonnegative reals, so sorting by the radicand produces the same order. -/
def dist2 (p1 p2 : Int × Int) : Int :=
  (p2.1 - p1.1) ^ 2 + (p2.2 - p1.2) ^ 2

/-- The body of `Mtapi.get_by_point` after the freshness check: sort all
stations by distance of `s['location']` from the point and return the first
`limit` serialized records. -/
def get_by_point_core (s : MtapiState) (point : Int × Int) (limit : Nat) :
    Except Unit (List (List (String × Value))) := do
  let keyed ← s.stations.mapM (fun p =>
    match dictGet p.2.json "location" with
    | some (Value.pair a b) => Except.ok (dist2 (a, b) point, p.2)
    | _ => Except.error ())
  let sorted := (keyed.mergeSort (fun a b => decide (a.1 ≤ b.1))).map (fun p => p.2)
  Except.ok ((sorted.map serialize).take limit)

/-- `Mtapi.get_by_point`: run a synchronous rebuild first when the snapshot is
expired.  The second component counts the rebuilds triggered by this call. -/
def get_by_point (cfg : Config) (env : FeedEnv) (restart_if_dead : Bool) (now : Int)
    (s : MtapiState) (point : Int × Int) (limit : Nat) :
    Except Unit (List (List (String × Value))) × Nat :=
  if is_expired cfg restart_if_dead now s.last_update then
    (do
      let s2 ← update cfg env now s
      get_by_point_core s2 point limit, 1)
  else
    (get_by_point_core s point limit, 0)

/-- The relationship `add_train` maintains between a station's train lists
and its `routes` set: every listed train's route id is in `routes`. -/
def trains_routes_inv (st : Station) : Prop :=
  (∀ x ∈ st.trainsN, x.route ∈ st.routes) ∧ (∀ x ∈ st.trainsS, x.route ∈ st.routes)

/-- The key stored for a record by the sort of `get_by_route` (`x['name']` as
a string; records produced by `serialize` from a catalog with a string
`name` field always have one). -/
def nameOf (record : List (String × Value)) : String :=
  match dictGet record "name" with
  | some (Value.str n) => n
  | _ => ""

instance {ε α : Type} [DecidableEq ε] [DecidableEq α] : DecidableEq (Except ε α) := fun a b =>
  match a, b with
  | Except.ok x, Except.ok y =>
    if h : x = y then Decidable.isTrue (by rw [h]) else Decidable.isFalse (by simp [h])
  | Except.error x, Except.error y =>
    if h : x = y then Decidable.isTrue (by rw [h]) else Decidable.isFalse (by simp [h])
  | Except.ok _, Except.error _ => Decidable.isFalse (by simp)
  | Except.error _, Except.ok _ => Decidable.isFalse (by simp)

/-! ## Concrete fixtures used to evaluate the model on closed inputs -/

/-- An empty feed environment: the alerts fetch failed and there are no trip
feeds. -/
def env0 : FeedEnv := { alerts_feed := none, trip_feeds := [] }

/-- A catalog station `A` with a single stop `A1`. -/
def stationA : Station :=
  { json := [("name", Value.str "Alpha"), ("location", Value.pair 0 0),
             ("stops", Value.strList ["A1"])],
    trainsN := [], trainsS := [], routes := [], last_update := none, alerts := [] }

/-- A state holding only station `A`. -/
def stateA : MtapiState :=
  { stations := [("A", stationA)], stops_to_stations := [("A1", "A")],
    routes := [], last_update := 0 }

/-- A configuration that truncates train lists to a single train. -/
def cfgTrunc : Config :=
  { max_trains := 1, max_minutes := 30, expires_seconds := 60, threaded := false,
    service_alerts_enabled := false }

/-- One feed carrying two valid northbound trips at stop `A1`: route `A` due
at 60 s and route `B` due at 120 s. -/
def envTwoRoutes : FeedEnv :=
  { alerts_feed := none,
    trip_feeds := [some { timestamp := 5, entity :=
      [{ is_valid := true, direction := "N", route_id := "A",
         stop_time_updates := [{ time := 60, stop_id := "A1" }] },
       { is_valid := true, direction := "N", route_id := "B",
         stop_time_updates := [{ time := 120, stop_id := "A1" }] }] }] }

/-- The station published by rebuilding `stateA` against `envTwoRoutes` at
`now = 0` with `cfgTrunc`: the route `B` train is truncated away but `B`
stays in `routes`. -/
def stationA_published : Station :=
  { json := stationA.json,
    trainsN := [{ route := "A", time := 60 }],
    trainsS := [], routes := ["A", "B"], last_update := some 5, alerts := [] }

/-- The full state published by that rebuild. -/
def stateA_published : MtapiState :=
  { stations := [("A", stationA_published)],
    stops_to_stations := [("A1", "A")],
    routes := [("A", ["A1"]), ("B", ["A1"])],
    last_update := 0 }

/-- A catalog station `A` with two stops `A1`, `A2` (a station complex). -/
def stationAlpha2 : Station :=
  { json := [("name", Value.str "Alpha"), ("location", Value.pair 0 0),
             ("stops", Value.strList ["A1", "A2"])],
    trainsN := [], trainsS := [], routes := [], last_update := none, alerts := [] }

/-- A passive configuration with expiry disabled (`expires_seconds = 0`). -/
def cfgPassive0 : Config :=
  { max_trains := 10, max_minutes := 30, expires_seconds := 0, threaded := false,
    service_alerts_enabled := false }

/-- A state where route `Q` serves both stops of station `A`. -/
def stateQ : MtapiState :=
  { stations := [("A", stationAlpha2)],
    stops_to_stations := [("A1", "A"), ("A2", "A")],
    routes := [("Q", ["A1", "A2"])],
    last_update := 0 }

/-- A passive configuration with a 60 s expiry window. -/
def cfg8 : Config :=
  { max_trains := 10, max_minutes := 30, expires_seconds := 60, threaded := false,
    service_alerts_enabled := false }

/-- An empty state with build timestamp 0. -/
def s8 : MtapiState :=
  { stations := [], stops_to_stations := [], routes := [], last_update := 0 }

/-- A station whose catalog record collides with the derived `routes` field
of `serialize`. -/
def stationCollide : Station :=
  { json := [("name", Value.str "Alpha"), ("routes", Value.str "catalog-value")],
    trainsN := [], trainsS := [], routes := ["7"], last_update := none, alerts := [] }

/-! ## Generic helper lemmas about the `Except`-monadic combinators -/

theorem except_bind_ok {α β : Type} (a : α) (g : α → Except Unit β) :
    (Except.ok a >>= g : Except Unit β) = g a := rfl

theorem except_bind_error {α β : Type} (e : Unit) (g : α → Except Unit β) :
    ((Except.error e : Except Unit α) >>= g) = Except.error e := rfl

theorem except_pure {α : Type} (a : α) : (pure a : Except Unit α) = Except.ok a := rfl

/-- A property of the accumulator preserved by every successful step of an
`Except`-valued fold holds of the final result. -/
theorem foldlM_ok_induction {α β : Type} (P : β → Prop) {f : β → α → Except Unit β}
    (hstep : ∀ b a b2, f b a = Except.ok b2 → P b → P b2) :
    ∀ (l : List α) (init res : β), List.foldlM f init l = Except.ok res → P init → P res
  | [], init, res, h, hi => by
      rw [List.foldlM_nil, except_pure] at h
      cases h
      exact hi
  | a :: l, init, res, h, hi => by
      rw [List.foldlM_cons] at h
      cases hf : f init a with
      | error e =>
          rw [hf, except_bind_error] at h
          cases h
      | ok b =>
          rw [hf, except_bind_ok] at h
          exact foldlM_ok_induction P hstep l b res h (hstep _ _ _ hf hi)

/-- Every element of a successful `mapM'` image comes from a successful
application of the function to some element of the source list. -/
theorem mapM'_ok_mem {α β : Type} {f : α → Except Unit β} :
    ∀ {l : List α} {res : List β}, List.mapM' f l = Except.ok res →
      ∀ b ∈ res, ∃ a ∈ l, f a = Except.ok b
  | [], res, h, b, hb => by
      rw [show List.mapM' f [] = pure [] from rfl, except_pure] at h
      cases h
      simp at hb
  | a :: l, res, h, b, hb => by
      rw [show List.mapM' f (a :: l)
            = (f a >>= fun b => List.mapM' f l >>= fun bs => pure (b :: bs)) from rfl] at h
      cases hf : f a with
      | error e => rw [hf, except_bind_error] at h; cases h
      | ok b1 =>
          rw [hf, except_bind_ok] at h
          cases hrest : List.mapM' f l with
          | error e => rw [hrest, except_bind_error] at h; cases h
          | ok bs =>
              rw [hrest, except_bind_ok, except_pure] at h
              cases h
              cases List.mem_cons.mp hb with
              | inl hhead => exact ⟨a, List.mem_cons_self a l, hhead ▸ hf⟩
              | inr htail =>
                  obtain ⟨a2, ha2, hfa2⟩ := mapM'_ok_mem hrest b htail
                  exact ⟨a2, List.mem_cons_of_mem a ha2, hfa2⟩

/-- A successful `mapM'` preserves the length. -/
theorem mapM'_ok_length {α β : Type} {f : α → Except Unit β} :
    ∀ {l : List α} {res : List β}, List.mapM' f l = Except.ok res →
      res.length = l.length
  | [], res, h => by
      rw [show List.mapM' f [] = pure [] from rfl, except_pure] at h
      cases h
      rfl
  | a :: l, res, h => by
      rw [show List.mapM' f (a :: l)
            = (f a >>= fun b => List.mapM' f l >>= fun bs => pure (b :: bs)) from rfl] at h
      cases hf : f a with
      | error e => rw [hf, except_bind_error] at h; cases h
      | ok b1 =>
          rw [hf, except_bind_ok] at h
          cases hrest : List.mapM' f l with
          | error e => rw [hrest, except_bind_error] at h; cases h
          | ok bs =>
              rw [hrest, except_bind_ok, except_pure] at h
              cases h
              simp [mapM'_ok_length hrest]

/-- A `mapM'` fails as soon as the function fails on any element. -/
theorem mapM'_error_of_mem {α β : Type} {f : α → Except Unit β} :
    ∀ {l : List α} {a : α}, a ∈ l → f a = Except.error () →
      List.mapM' f l = Except.error ()
  | a0 :: l, a, ha, hfa => by
      rw [show List.mapM' f (a0 :: l)
            = (f a0 >>= fun b => List.mapM' f l >>= fun bs => pure (b :: bs)) from rfl]
      cases List.mem_cons.mp ha with
      | inl hhead =>
          rw [hhead] at hfa
          rw [hfa, except_bind_error]
      | inr htail =>
          cases hf : f a0 with
          | error e => cases e; rw [except_bind_error]
          | ok b =>
              rw [except_bind_ok, mapM'_error_of_mem htail hfa, except_bind_error]

theorem mapM_ok_mem {α β : Type} {f : α → Except Unit β} {l : List α} {res : List β}
    (h : l.mapM f = Except.ok res) : ∀ b ∈ res, ∃ a ∈ l, f a = Except.ok b :=
  mapM'_ok_mem (by rw [List.mapM'_eq_mapM]; exact h)

theorem mapM_ok_length {α β : Type} {f : α → Except Unit β} {l : List α} {res : List β}
    (h : l.mapM f = Except.ok res) : res.length = l.length :=
  mapM'_ok_length (by rw [List.mapM'_eq_mapM]; exact h)

theorem mapM_error_of_mem {α β : Type} {f : α → Except Unit β} {l : List α} {a : α}
    (ha : a ∈ l) (hfa : f a = Except.error ()) : l.mapM f = Except.error () := by
  rw [← List.mapM'_eq_mapM]
  exact mapM'_error_of_mem ha hfa

/-! ## Association list (Python dict) lemmas -/

theorem lookup_mem {β : Type} : ∀ {l : List (String × β)} {k : String} {v : β},
    List.lookup k l = some v → (k, v) ∈ l
  | (k1, v1) :: rest, k, v, h => by
      rw [List.lookup_cons] at h
      cases hk : (k == k1) with
      | true =>
          rw [hk] at h
          cases h
          have : k = k1 := by simpa using hk
          subst this
          exact List.mem_cons_self _ _
      | false =>
          rw [hk] at h
          exact List.mem_cons_of_mem _ (lookup_mem h)

theorem lookup_eq_none_iff {β : Type} : ∀ {l : List (String × β)} {k : String},
    List.lookup k l = none ↔ k ∉ l.map (fun p => p.1)
  | [], k => by simp
  | (k1, v1) :: rest, k => by
      rw [List.lookup_cons]
      cases hk : (k == k1) with
      | true =>
          have : k = k1 := by simpa using hk
          subst this
          simp
      | false =>
          have hne : k ≠ k1 := by simpa using hk
          simp only [List.map_cons, List.mem_cons]
          rw [lookup_eq_none_iff]
          constructor
          · intro h hmem
            cases hmem with
            | inl heq => exact hne heq
            | inr hmem => exact h hmem
          · intro h hmem
            exact h (Or.inr hmem)

theorem chars_le_trans : ∀ as bs cs, chars_le as bs = true → chars_le bs cs = true →
    chars_le as cs = true
  | [], _, _, _, _ => rfl
  | a :: as, [], cs, h1, _ => by simp [chars_le] at h1
  | a :: as, b :: bs, [], _, h2 => by simp [chars_le] at h2
  | a :: as, b :: bs, c :: cs, h1, h2 => by
      by_cases hab : a.toNat < b.toNat
      · by_cases hbc : b.toNat < c.toNat
        · have hac : a.toNat < c.toNat := Nat.lt_trans hab hbc
          simp [chars_le, hac]
        · by_cases hcb : c.toNat < b.toNat
          · simp [chars_le, hbc, hcb] at h2
          · have hac : a.toNat < c.toNat := by omega
            simp [chars_le, hac]
      · by_cases hba : b.toNat < a.toNat
        · simp [chars_le, hab, hba] at h1
        · by_cases hbc : b.toNat < c.toNat
          · have hac : a.toNat < c.toNat := by omega
            simp [chars_le, hac]
          · by_cases hcb : c.toNat < b.toNat
            · simp [chars_le, hbc, hcb] at h2
            · have h1b : chars_le as bs = true := by
                simpa [chars_le, hab, hba] using h1
              have h2b : chars_le bs cs = true := by
                simpa [chars_le, hbc, hcb] using h2
              have hac1 : ¬a.toNat < c.toNat := by omega
              have hac2 : ¬c.toNat < a.toNat := by omega
              simpa [chars_le, hac1, hac2] using chars_le_trans as bs cs h1b h2b

theorem chars_le_total : ∀ as bs, (chars_le as bs || chars_le bs as) = true
  | [], _ => by simp [chars_le]
  | a :: as, [] => by simp [chars_le]
  | a :: as, b :: bs => by
      by_cases hab : a.toNat < b.toNat
      · simp [chars_le, hab]
      · by_cases hba : b.toNat < a.toNat
        · simp [chars_le, hab, hba]
        · simpa [chars_le, hab, hba] using chars_le_total as bs

theorem str_le_trans {a b c : String} (h1 : str_le a b = true) (h2 : str_le b c = true) :
    str_le a c = true :=
  chars_le_trans a.toList b.toList c.toList h1 h2

theorem str_le_total (a b : String) : (str_le a b || str_le b a) = true :=
  chars_le_total a.toList b.toList

theorem lookup_map_overwrite {β : Type} (d : List (String × β)) (k : String) (v : β) :
    List.lookup k (d.map (fun p => if p.1 == k then (p.1, v) else p))
      = (List.lookup k d).map (fun _ => v) := by
  induction d with
  | nil => rfl
  | cons p rest ih =>
      obtain ⟨k1, v1⟩ := p
      by_cases hk : k = k1
      · subst hk
        simp [List.lookup_cons]
      · have h1 : (k1 == k) = false := by simpa using fun h => hk h.symm
        have h2 : (k == k1) = false := by simpa using hk
        simp only [List.map_cons, h1, Bool.false_eq_true, if_false, List.lookup_cons, h2]
        exact ih

theorem lookup_map_overwrite_ne {β : Type} (d : List (String × β)) (k k2 : String) (v : β)
    (hne : k ≠ k2) :
    List.lookup k (d.map (fun p => if p.1 == k2 then (p.1, v) else p)) = List.lookup k d := by
  induction d with
  | nil => rfl
  | cons p rest ih =>
      obtain ⟨k1, v1⟩ := p
      by_cases hk : k1 = k2
      · subst hk
        have h2 : (k == k1) = false := by simpa using hne
        have h3 : (k1 == k1) = true := beq_self_eq_true k1
        simp only [List.map_cons, h3, if_true, List.lookup_cons, h2]
        exact ih
      · have h1 : (k1 == k2) = false := by simpa using hk
        simp only [List.map_cons, h1, Bool.false_eq_true, if_false, List.lookup_cons]
        cases hkk : (k == k1) with
        | true => rfl
        | false => exact ih

theorem lookup_append_single_self {β : Type} (d : List (String × β)) (k : String) (v : β)
    (h : List.lookup k d = none) : List.lookup k (d ++ [(k, v)]) = some v := by
  induction d with
  | nil => simp [List.lookup]
  | cons p rest ih =>
      obtain ⟨k1, v1⟩ := p
      rw [List.lookup_cons] at h
      rw [List.cons_append, List.lookup_cons]
      cases hk : (k == k1) with
      | true => rw [hk] at h; cases h
      | false => rw [hk] at h; exact ih h

theorem lookup_append_single_ne {β : Type} (d : List (String × β)) (k k2 : String) (v : β)
    (hne : k ≠ k2) : List.lookup k (d ++ [(k2, v)]) = List.lookup k d := by
  induction d with
  | nil =>
      have h2 : (k == k2) = false := by simpa using hne
      simp [List.lookup, h2]
  | cons p rest ih =>
      obtain ⟨k1, v1⟩ := p
      rw [List.cons_append, List.lookup_cons, List.lookup_cons]
      cases hk : (k == k1) with
      | true => rfl
      | false => exact ih

theorem dictGet_dictSet_self (d : List (String × Value)) (k : String) (v : Value) :
    dictGet (dictSet d k v) k = some v := by
  unfold dictGet dictSet
  cases hl : List.lookup k d with
  | some w => rw [lookup_map_overwrite, hl]; rfl
  | none => exact lookup_append_single_self d k v hl

theorem dictGet_dictSet_ne (d : List (String × Value)) (k k2 : String) (v : Value)
    (hne : k ≠ k2) : dictGet (dictSet d k2 v) k = dictGet d k := by
  unfold dictGet dictSet
  cases hl : List.lookup k2 d with
  | some w => exact lookup_map_overwrite_ne d k k2 v hne
  | none => exact lookup_append_single_ne d k k2 v hne

theorem dictUpdate_cons (d : List (String × Value)) (p : String × Value)
    (rest : List (String × Value)) :
    dictUpdate d (p :: rest) = dictUpdate (dictSet d p.1 p.2) rest := rfl

theorem dictGet_dictUpdate_not_mem (d src : List (String × Value)) (k : String)
    (h : List.lookup k src = none) : dictGet (dictUpdate d src) k = dictGet d k := by
  induction src generalizing d with
  | nil => rfl
  | cons p rest ih =>
      obtain ⟨k1, v1⟩ := p
      rw [List.lookup_cons] at h
      rw [dictUpdate_cons]
      cases hk : (k == k1) with
      | true => rw [hk] at h; cases h
      | false =>
          rw [hk] at h
          have hne : k ≠ k1 := by simpa using hk
          rw [ih _ h, dictGet_dictSet_ne _ _ _ _ hne]

theorem dictGet_dictUpdate_mem (d src : List (String × Value)) (k : String) (v : Value)
    (hnd : (src.map (fun p => p.1)).Nodup) (h : List.lookup k src = some v) :
    dictGet (dictUpdate d src) k = some v := by
  induction src generalizing d with
  | nil => cases h
  | cons p rest ih =>
      obtain ⟨k1, v1⟩ := p
      rw [List.lookup_cons] at h
      rw [dictUpdate_cons]
      simp only [List.map_cons, List.nodup_cons] at hnd
      cases hk : (k == k1) with
      | true =>
          rw [hk] at h
          have hkeq : k = k1 := by simpa using hk
          subst hkeq
          cases h
          have hrest : List.lookup k rest = none := lookup_eq_none_iff.mpr hnd.1
          rw [dictGet_dictUpdate_not_mem _ _ _ hrest]
          exact dictGet_dictSet_self d k _
      | false =>
          rw [hk] at h
          exact ih _ hnd.2 h

/-! ## C10: serialization merges the static catalog record over the derived
fields -/

/-- C10: `serialize` builds the record from the derived fields and then
merges the catalog record over it, so every catalog field appears unchanged
in the output (overwriting a colliding derived field), and a key absent from
the catalog record keeps its derived value. -/
theorem C10_serialize_catalog_overrides (st : Station)
    (hnodup : (st.json.map (fun p => p.1)).Nodup) :
    (∀ k v, dictGet st.json k = some v → dictGet (serialize st) k = some v)
    ∧ (∀ k, dictGet st.json k = none →
        dictGet (serialize st) k = dictGet (serialize_out st) k) := by
  constructor
  · intro k v h
    unfold serialize
    exact dictGet_dictUpdate_mem _ _ _ _ hnodup h
  · intro k h
    unfold serialize
    exact dictGet_dictUpdate_not_mem _ _ _ h

theorem C10_witness :
    (stationCollide.json.map (fun p => p.1)).Nodup
    ∧ dictGet (serialize stationCollide) "routes" = some (Value.str "catalog-value") :=
  ⟨by decide,
   (C10_serialize_catalog_overrides stationCollide (by decide)).1 "routes"
     (Value.str "catalog-value") rfl⟩

/-! ## C3: the English fallback of `_get_alert_text` -/

/-- C3: evaluating `_get_alert_text` at the failing inputs.  With the
requested language absent, the plain `en` translation is returned only when
it happens to be the last one (the local `english_text` is reset to `None`
at the top of every loop iteration): a later non-English translation erases
the fallback, so an alert with a derivable English text is skipped; and an
alert with no translations at all raises (aborting the rebuild) instead of
being skipped. -/
theorem C3_alert_text_fallback_is_broken :
    get_alert_text
        { active_period := [], informed_entity := [],
          translation := [{ language := "en", text := "Detour" },
                          { language := "fr", text := "Umleitung" }] }
        "en-html"
      = Except.ok none
    ∧ get_alert_text
        { active_period := [], informed_entity := [],
          translation := [{ language := "fr", text := "Umleitung" },
                          { language := "en", text := "Detour" }] }
        "en-html"
      = Except.ok (some "Detour")
    ∧ get_alert_text
        { active_period := [], informed_entity := [], translation := [] }
        "en-html"
      = Except.error ()
    ∧ get_alert_text
        { active_period := [], informed_entity := [],
          translation := [{ language := "en-html", text := "Rich" },
                          { language := "en", text := "Plain" }] }
        "en-html"
      = Except.ok (some "Rich") :=
  ⟨rfl, rfl, rfl, rfl⟩

/-! ## C7: the stop-time update window of `_update` -/

/-- C7: during a rebuild at timestamp `now`, a stop-time update contributes a
train to the station owning its stop id exactly when its predicted time lies
in `[now, now + max_minutes]` and its stop id is in the stop-to-station
index; otherwise it is skipped (no exception is raised: the decision is
total). -/
theorem C7_stop_time_window (stops_to_stations : List (String × String))
    (now max_minutes : Int) (u : StopTimeUpdate) :
    (∀ station_id,
      process_stop_time_update stops_to_stations now max_minutes u = some station_id ↔
        (now ≤ u.time ∧ u.time ≤ now + 60 * max_minutes ∧
          List.lookup u.stop_id stops_to_stations = some station_id))
    ∧ (process_stop_time_update stops_to_stations now max_minutes u = none ↔
        (u.time < now ∨ u.time > now + 60 * max_minutes ∨
          List.lookup u.stop_id stops_to_stations = none)) := by
  unfold process_stop_time_update
  by_cases hwin : u.time < now ∨ u.time > now + 60 * max_minutes
  · rw [if_pos hwin]
    constructor
    · intro station_id
      constructor
      · intro h; cases h
      · rintro ⟨h1, h2, _⟩
        cases hwin with
        | inl h => omega
        | inr h => omega
    · constructor
      · intro _
        cases hwin with
        | inl h => exact Or.inl h
        | inr h => exact Or.inr (Or.inl h)
      · intro _; rfl
  · rw [if_neg hwin]
    push_neg at hwin
    constructor
    · intro station_id
      constructor
      · intro h
        exact ⟨hwin.1, hwin.2, h⟩
      · rintro ⟨_, _, h⟩
        exact h
    · constructor
      · intro h
        exact Or.inr (Or.inr h)
      · intro h
        rcases h with h | h | h
        · omega
        · omega
        · exact h

theorem C7_witness :
    process_stop_time_update [("A1", "A")] 0 30 { time := 2700, stop_id := "A1" } = none :=
  (C7_stop_time_window [("A1", "A")] 0 30 { time := 2700, stop_id := "A1" }).2.mpr
    (Or.inr (Or.inl (by decide)))

/-! ## C8: the passive staleness policy -/

/-- C8: in passive (non-threaded) mode a query triggers exactly one
synchronous rebuild before returning iff `expires_seconds` is nonzero and
the snapshot age exceeds it, and never otherwise; the three query entry
points share the same trigger count. -/
theorem C8_passive_rebuild_policy (cfg : Config) (env : FeedEnv) (restart_if_dead : Bool)
    (now : Int) (s : MtapiState) (ids : List String) (route : String)
    (point : Int × Int) (limit : Nat)
    (hpassive : cfg.threaded = false) :
    ((get_by_id cfg env restart_if_dead now s ids).2 = 1 ↔
      (cfg.expires_seconds ≠ 0 ∧ now - s.last_update > cfg.expires_seconds))
    ∧ ((get_by_id cfg env restart_if_dead now s ids).2 = 0 ↔
      ¬(cfg.expires_seconds ≠ 0 ∧ now - s.last_update > cfg.expires_seconds))
    ∧ (get_by_route cfg env restart_if_dead now s route).2
        = (get_by_id cfg env restart_if_dead now s ids).2
    ∧ (get_by_point cfg env restart_if_dead now s point limit).2
        = (get_by_id cfg env restart_if_dead now s ids).2 := by
  have hexp : (is_expired cfg restart_if_dead now s.last_update = true) ↔
      (cfg.expires_seconds ≠ 0 ∧ now - s.last_update > cfg.expires_seconds) := by
    unfold is_expired
    rw [hpassive]
    by_cases h0 : cfg.expires_seconds = 0 <;> simp [h0, bne]
  have hid : (get_by_id cfg env restart_if_dead now s ids).2
      = if is_expired cfg restart_if_dead now s.last_update then 1 else 0 := by
    unfold get_by_id
    split <;> rfl
  have hroute : (get_by_route cfg env restart_if_dead now s route).2
      = if is_expired cfg restart_if_dead now s.last_update then 1 else 0 := by
    unfold get_by_route
    split <;> rfl
  have hpoint : (get_by_point cfg env restart_if_dead now s point limit).2
      = if is_expired cfg restart_if_dead now s.last_update then 1 else 0 := by
    unfold get_by_point
    split <;> rfl
  refine ⟨?_, ?_, by rw [hroute, hid], by rw [hpoint, hid]⟩
  · rw [hid]
    by_cases hc : is_expired cfg restart_if_dead now s.last_update
    · simp [hc, hexp.mp hc]
    · rw [if_neg hc]
      simp only [Bool.not_eq_true] at hc
      constructor
      · intro h; cases h
      · intro h
        exact absurd (hexp.mpr h) (by rw [hc]; intro h2; cases h2)
  · rw [hid]
    by_cases hc : is_expired cfg restart_if_dead now s.last_update
    · simp only [hc, if_true]
      constructor
      · intro h; cases h
      · intro h
        exact absurd (hexp.mp hc) h
    · simp only [hc, if_false]
      constructor
      · intro _
        intro hcond
        exact absurd (hexp.mpr hcond) (by simp [hc])
      · intro _; rfl

theorem C8_witness :
    (get_by_id cfg8 env0 false 1000 s8 []).2 = 1 :=
  (C8_passive_rebuild_policy cfg8 env0 false 1000 s8 [] "A" (0, 0) 5 rfl).1.mpr
    ⟨by decide, by decide⟩

/-! ## C6: stop matching and first-match-wins in the informed-entity loop -/

/-- C6: an informed entity stop-matches a station exactly when it names a
stop id equal to one of the station's stop ids, either exactly or after
stripping the trailing direction characters (`rstrip('NS')`); and the
per-alert informed-entity loop attaches a `stop`-typed alert exactly when
some informed entity stop-matches and every earlier informed entity matched
neither by stop nor by route: the stop check runs before the route check and
the loop breaks at the first match. -/
theorem C6_stop_match_first_match_wins :
    (∀ (informed : InformedEntity) (stops : List String),
      alert_applies_to_stop informed stops = true ↔
        ∃ sid, informed.stop_id = some sid ∧
          ∃ stop ∈ stops, stop = sid ∨ stop = rstrip sid ['N', 'S'])
    ∧ (∀ (stops : List String) (station_routes : List String)
        (l : List InformedEntity),
      informed_entity_loop stops station_routes l = some AlertType.stop ↔
        ∃ l1 informed l2, l = l1 ++ informed :: l2 ∧
          alert_applies_to_stop informed stops = true ∧
          ∀ j ∈ l1, alert_applies_to_stop j stops = false
            ∧ route_matches j station_routes = false) := by
  constructor
  · intro informed stops
    unfold alert_applies_to_stop
    cases h : informed.stop_id with
    | none => simp [h]
    | some alert_stop => simp [h, List.any_eq_true]
  · intro stops station_routes l
    induction l with
    | nil =>
        simp only [informed_entity_loop]
        constructor
        · intro h; cases h
        · rintro ⟨l1, informed, l2, heq, _, _⟩
          exact absurd heq (by simp)
    | cons i rest ih =>
        simp only [informed_entity_loop]
        by_cases h1 : alert_applies_to_stop i stops = true
        · rw [if_pos h1]
          constructor
          · intro _
            refine ⟨[], i, rest, rfl, h1, ?_⟩
            intro j hj
            simp at hj
          · intro _
            rfl
        · have h1f : alert_applies_to_stop i stops = false := by
            simpa using h1
          rw [if_neg (by simp [h1f])]
          by_cases h2 : route_matches i station_routes = true
          · rw [if_pos h2]
            constructor
            · intro h; cases h
            · rintro ⟨l1, informed, l2, heq, hinf, hprev⟩
              exfalso
              cases l1 with
              | nil =>
                  simp only [List.nil_append] at heq
                  cases heq
                  rw [h1f] at hinf
                  cases hinf
              | cons a l1t =>
                  simp only [List.cons_append, List.cons.injEq] at heq
                  obtain ⟨hai, hrest⟩ := heq
                  have ha := hprev a (List.mem_cons_self _ _)
                  rw [hai, ha.2] at h2
                  cases h2
          · have h2f : route_matches i station_routes = false := by simpa using h2
            rw [if_neg (by simp [h2f])]
            rw [ih]
            constructor
            · rintro ⟨l1, informed, l2, heq, hinf, hprev⟩
              refine ⟨i :: l1, informed, l2, by rw [heq, List.cons_append], hinf, ?_⟩
              intro j hj
              cases List.mem_cons.mp hj with
              | inl hj => subst hj; exact ⟨h1f, h2f⟩
              | inr hj => exact hprev j hj
            · rintro ⟨l1, informed, l2, heq, hinf, hprev⟩
              cases l1 with
              | nil =>
                  simp only [List.nil_append, List.cons.injEq] at heq
                  obtain ⟨hii, _⟩ := heq
                  rw [← hii, h1f] at hinf
                  cases hinf
              | cons a l1t =>
                  simp only [List.cons_append, List.cons.injEq] at heq
                  obtain ⟨hai, hrest⟩ := heq
                  exact ⟨l1t, informed, l2, hrest, hinf,
                    fun j hj => hprev j (List.mem_cons_of_mem _ hj)⟩

theorem C6_witness :
    informed_entity_loop ["A1"] [] [{ stop_id := some "A1N", route_id := none }]
      = some AlertType.stop :=
  (C6_stop_match_first_match_wins.2 ["A1"] []
      [{ stop_id := some "A1N", route_id := none }]).mpr
    ⟨[], { stop_id := some "A1N", route_id := none }, [], rfl, by decide,
      by intro j hj; cases hj⟩

/-! ## Reduction lemmas for the query layer on a fresh snapshot -/

theorem get_by_route_fresh (cfg : Config) (env : FeedEnv) (restart_if_dead : Bool)
    (now : Int) (s : MtapiState) (route : String)
    (hfresh : is_expired cfg restart_if_dead now s.last_update = false) :
    get_by_route cfg env restart_if_dead now s route
      = (get_by_route_core s (str_upper route), 0) := by
  unfold get_by_route
  rw [if_neg (by simp [hfresh])]

theorem get_by_id_fresh (cfg : Config) (env : FeedEnv) (restart_if_dead : Bool)
    (now : Int) (s : MtapiState) (ids : List String)
    (hfresh : is_expired cfg restart_if_dead now s.last_update = false) :
    get_by_id cfg env restart_if_dead now s ids
      = ((do
            let out ← get_by_id_core s ids
            Except.ok (out, s)), 0) := by
  unfold get_by_id
  rw [if_neg (by simp [hfresh])]

/-- Reading the route index for an absent key: the `defaultdict` inserts the
key with an empty stop set and the query returns an empty result. -/
theorem get_by_route_core_absent (s : MtapiState) (key : String)
    (habsent : key ∉ s.routes.map (fun p => p.1)) :
    get_by_route_core s key
      = Except.ok ([], { s with routes := s.routes ++ [(key, [])] }) := by
  have hlk : List.lookup key s.routes = none := lookup_eq_none_iff.mpr habsent
  unfold get_by_route_core ddLookup
  rw [hlk]
  simp only [List.mapM_nil, except_pure, except_bind_ok]
  unfold sort_by_name
  simp only [List.mapM_nil, except_pure, except_bind_ok, List.mergeSort_nil, List.map_nil]

/-! ## C4: lookup failures of `get_by_id` and `get_by_route` -/

/-- C4 counterexample: the claim says `get_by_route` with a route id absent
from the current data signals a lookup failure and never silently returns an
empty result; on the code, querying the absent route `ZZ` returns
`Except.ok []` (no error). -/
theorem C4_counterexample :
    (str_upper "ZZ" ∉ stateQ.routes.map (fun p => p.1))
    ∧ (get_by_route cfgPassive0 env0 false 0 stateQ "ZZ").1.map (fun p => p.1)
        = Except.ok [] := by
  constructor
  · decide
  · rw [get_by_route_fresh cfgPassive0 env0 false 0 stateQ "ZZ" (by decide)]
    rw [get_by_route_core_absent stateQ (str_upper "ZZ") (by decide)]
    rfl

/-- C4 (amended): `get_by_id` raises a lookup error (KeyError) whenever any
requested id is absent from the station map; but `get_by_route` with a route
id absent from the route index does not signal a failure: because the index
is a `defaultdict(set)`, the lookup inserts the key and the call returns an
empty list. -/
theorem C4_amended_lookup_failures (cfg : Config) (env : FeedEnv) (restart_if_dead : Bool)
    (now : Int) (s : MtapiState)
    (hfresh : is_expired cfg restart_if_dead now s.last_update = false) :
    (∀ ids id, id ∈ ids → List.lookup id s.stations = none →
      (get_by_id cfg env restart_if_dead now s ids).1 = Except.error ())
    ∧ (∀ route : String, str_upper route ∉ s.routes.map (fun p => p.1) →
      (get_by_route cfg env restart_if_dead now s route).1
        = Except.ok ([], { s with routes := s.routes ++ [(str_upper route, [])] })) := by
  constructor
  · intro ids id hid hnone
    rw [get_by_id_fresh cfg env restart_if_dead now s ids hfresh]
    have hcore : get_by_id_core s ids = Except.error () := by
      unfold get_by_id_core
      apply mapM_error_of_mem hid
      show (lookupStation s.stations id >>= fun st => Except.ok (serialize st))
          = Except.error ()
      unfold lookupStation
      rw [hnone, except_bind_error]
    show (get_by_id_core s ids >>= fun out => Except.ok (out, s)) = Except.error ()
    rw [hcore, except_bind_error]
  · intro route habsent
    rw [get_by_route_fresh cfg env restart_if_dead now s route hfresh]
    exact get_by_route_core_absent s (str_upper route) habsent

theorem C4_witness :
    is_expired cfgPassive0 false 0 stateQ.last_update = false
    ∧ "NOPE" ∈ ["NOPE"]
    ∧ List.lookup "NOPE" stateQ.stations = none
    ∧ (get_by_id cfgPassive0 env0 false 0 stateQ ["NOPE"]).1 = Except.error () :=
  ⟨by decide, by decide, by decide,
    (C4_amended_lookup_failures cfgPassive0 env0 false 0 stateQ (by decide)).1
      ["NOPE"] "NOPE" (by decide) (by decide)⟩

/-! ## C9: the defaultdict mutation of `get_by_route` -/

/-- C9: querying an absent route through `get_by_route` mutates the shared
live route index: the `defaultdict` lookup inserts the unknown (upper-cased)
id with an empty stop set, the call returns an empty list, the inserted id
shows up in `get_routes`, and a rebuild replaces the index wholesale (its
output never depends on the previous route index). -/
theorem C9_get_by_route_mutates_route_index (cfg : Config) (env : FeedEnv)
    (restart_if_dead : Bool) (now : Int) (s : MtapiState) (route : String)
    (hfresh : is_expired cfg restart_if_dead now s.last_update = false)
    (habsent : str_upper route ∉ s.routes.map (fun p => p.1)) :
    ((get_by_route cfg env restart_if_dead now s route).1
      = Except.ok ([], { s with routes := s.routes ++ [(str_upper route, [])] }))
    ∧ (∀ l s2, (get_by_route cfg env restart_if_dead now s route).1 = Except.ok (l, s2) →
        str_upper route ∈ get_routes s2 ∧ s2.stations = s.stations)
    ∧ (∀ t, update cfg env now { s with routes := t } = update cfg env now s) := by
  have hmain : (get_by_route cfg env restart_if_dead now s route).1
      = Except.ok ([], { s with routes := s.routes ++ [(str_upper route, [])] }) := by
    rw [get_by_route_fresh cfg env restart_if_dead now s route hfresh]
    exact get_by_route_core_absent s (str_upper route) habsent
  refine ⟨hmain, ?_, ?_⟩
  · intro l s2 h
    rw [hmain] at h
    cases h
    constructor
    · unfold get_routes
      simp
    · rfl
  · intro t
    rfl

theorem C9_witness :
    (str_upper "ZZ" ∈ get_routes { stateQ with routes := stateQ.routes ++ [(str_upper "ZZ", [])] })
    ∧ update cfgPassive0 env0 0 { stateQ with routes := [] }
        = update cfgPassive0 env0 0 stateQ := by
  have h := C9_get_by_route_mutates_route_index cfgPassive0 env0 false 0 stateQ "ZZ"
    (by decide) (by decide)
  exact ⟨(h.2.1 [] _ h.1).1, h.2.2 []⟩

/-! ## C5: the shape of a successful `get_by_route` result -/

theorem name_key_ok {x : List (String × Value)} {pr : String × List (String × Value)}
    (h : name_key x = Except.ok pr) :
    dictGet x "name" = some (Value.str pr.1) ∧ pr.2 = x := by
  unfold name_key at h
  cases hn : dictGet x "name" with
  | none => rw [hn] at h; cases h
  | some v =>
      rw [hn] at h
      cases v with
      | str n => cases h; exact ⟨rfl, rfl⟩
      | num n => cases h
      | onum n => cases h
      | pair a b => cases h
      | strList l2 => cases h
      | strSet l2 => cases h
      | trains t => cases h
      | alerts a => cases h

theorem serialize_stop_ok {s : MtapiState} {k : String} {rec : List (String × Value)}
    (h : serialize_stop s k = Except.ok rec) :
    ∃ sid st, List.lookup k s.stops_to_stations = some sid
      ∧ List.lookup sid s.stations = some st ∧ rec = serialize st := by
  unfold serialize_stop lookup_stop_station at h
  cases hsid : List.lookup k s.stops_to_stations with
  | none => rw [hsid] at h; cases h
  | some sid =>
      rw [hsid, except_bind_ok] at h
      unfold lookupStation at h
      cases hst : List.lookup sid s.stations with
      | none => rw [hst] at h; cases h
      | some st =>
          rw [hst, except_bind_ok] at h
          cases h
          exact ⟨sid, st, rfl, hst, rfl⟩

unseal List.merge List.mergeSort in
/-- C5 counterexample: the claim says a station reachable via multiple stops
of the same route appears only once in the result of `get_by_route`; on the
code there is no deduplication: station `A`, owning both stops `A1` and `A2`
of route `Q`, is serialized twice (the result list is not duplicate-free). -/
theorem C5_counterexample :
    (get_by_route cfgPassive0 env0 false 0 stateQ "q").1.map
        (fun p => decide p.1.Nodup) = Except.ok false := by decide

/-- C5 (amended): for a fresh snapshot, a successful `get_by_route` resolves
the route id case-insensitively (only its upper-cased form matters), returns
one serialized owning station per stop id of the route's stop set (a station
reachable via several stops appears once per such stop, with no
deduplication), and the result is sorted ascending by station name. -/
theorem C5_amended_get_by_route (cfg : Config) (env : FeedEnv) (restart_if_dead : Bool)
    (now : Int) (s : MtapiState) (route : String)
    (l : List (List (String × Value))) (s2 : MtapiState)
    (hfresh : is_expired cfg restart_if_dead now s.last_update = false)
    (hok : (get_by_route cfg env restart_if_dead now s route).1 = Except.ok (l, s2)) :
    l.length = (ddLookup s.routes (str_upper route)).1.length
    ∧ (∀ record ∈ l, ∃ k ∈ (ddLookup s.routes (str_upper route)).1, ∃ sid st,
        List.lookup k s.stops_to_stations = some sid
        ∧ List.lookup sid s.stations = some st
        ∧ record = serialize st)
    ∧ List.Pairwise (fun a b => str_le (nameOf a) (nameOf b) = true) l
    ∧ (∀ r2 : String, str_upper r2 = str_upper route →
        get_by_route cfg env restart_if_dead now s r2
          = get_by_route cfg env restart_if_dead now s route) := by
  rw [get_by_route_fresh cfg env restart_if_dead now s route hfresh] at hok
  have hok2 : get_by_route_core s (str_upper route) = Except.ok (l, s2) := hok
  simp only [get_by_route_core] at hok2
  cases hmap : (ddLookup s.routes (str_upper route)).1.mapM (serialize_stop s) with
  | error e => rw [hmap, except_bind_error] at hok2; cases hok2
  | ok out =>
      rw [hmap, except_bind_ok] at hok2
      cases hsort : sort_by_name out with
      | error e => rw [hsort, except_bind_error] at hok2; cases hok2
      | ok sorted =>
          rw [hsort, except_bind_ok] at hok2
          simp only [Except.ok.injEq, Prod.mk.injEq] at hok2
          obtain ⟨hl, hs2⟩ := hok2
          subst hl
          simp only [sort_by_name] at hsort
          cases hkeyed : out.mapM name_key with
          | error e => rw [hkeyed, except_bind_error] at hsort; cases hsort
          | ok keyed =>
              rw [hkeyed, except_bind_ok] at hsort
              simp only [Except.ok.injEq] at hsort
              subst hsort
              have hmem_mergeSort : ∀ pr ∈ keyed.mergeSort
                  (fun a b => str_le a.1 b.1), nameOf pr.2 = pr.1 := by
                intro pr hpr
                have hprk : pr ∈ keyed := List.mem_mergeSort.mp hpr
                obtain ⟨x, _, hgx⟩ := mapM_ok_mem hkeyed pr hprk
                obtain ⟨hname, hx⟩ := name_key_ok hgx
                rw [hx]
                unfold nameOf
                rw [hname]
              refine ⟨?_, ?_, ?_, ?_⟩
              · rw [List.length_map, List.length_mergeSort,
                  mapM_ok_length hkeyed, mapM_ok_length hmap]
              · intro record hrec
                obtain ⟨pr, hpr, hpr2⟩ := List.mem_map.mp hrec
                have hprk : pr ∈ keyed := List.mem_mergeSort.mp hpr
                obtain ⟨x, hx, hgx⟩ := mapM_ok_mem hkeyed pr hprk
                obtain ⟨_, hxeq⟩ := name_key_ok hgx
                have hxrec : record = x := by rw [← hpr2, hxeq]
                subst hxrec
                obtain ⟨k, hk, hfk⟩ := mapM_ok_mem hmap record hx
                obtain ⟨sid, st, h1, h2, h3⟩ := serialize_stop_ok hfk
                exact ⟨k, hk, sid, st, h1, h2, h3⟩
              · have hsorted := @List.sorted_mergeSort
                    (String × List (String × Value))
                    (fun a b => str_le a.1 b.1)
                    (fun a b c hab hbc => str_le_trans hab hbc)
                    (fun a b => str_le_total a.1 b.1)
                    keyed
                rw [List.pairwise_map]
                refine List.Pairwise.imp_of_mem ?_ hsorted
                intro a b ha hb hab
                rw [hmem_mergeSort a ha, hmem_mergeSort b hb]
                exact hab
              · intro r2 h2
                unfold get_by_route
                rw [h2]

unseal List.merge List.mergeSort in
theorem C5_witness :
    [serialize stationAlpha2, serialize stationAlpha2].length
        = (ddLookup stateQ.routes (str_upper "q")).1.length
    ∧ List.Pairwise (fun a b => str_le (nameOf a) (nameOf b) = true)
        [serialize stationAlpha2, serialize stationAlpha2] := by
  have h := C5_amended_get_by_route cfgPassive0 env0 false 0 stateQ "q"
      [serialize stationAlpha2, serialize stationAlpha2] stateQ (by decide) (by decide)
  exact ⟨h.1, h.2.2.1⟩

/-! ## The rebuild pipeline: shape and invariants of the published snapshot -/

theorem bind_ok_inv {α β : Type} {X : Except Unit α} {f : α → Except Unit β} {b : β}
    (h : (X >>= f) = Except.ok b) : ∃ a, X = Except.ok a ∧ f a = Except.ok b := by
  cases X with
  | error e => rw [except_bind_error] at h; cases h
  | ok a => rw [except_bind_ok] at h; exact ⟨a, rfl, h⟩

theorem mem_setAdd_of_mem {l : List String} {x y : String} (h : x ∈ l) : x ∈ setAdd l y := by
  unfold setAdd
  split
  · exact h
  · exact List.mem_append_left _ h

theorem mem_setAdd_self (l : List String) (y : String) : y ∈ setAdd l y := by
  unfold setAdd
  split
  · next hy => exact hy
  · exact List.mem_append_right _ (List.mem_singleton.mpr rfl)

theorem add_alert_preserves (st : Station) (ty : AlertType) (text : String) :
    (add_alert st ty text).trainsN = st.trainsN
    ∧ (add_alert st ty text).trainsS = st.trainsS
    ∧ (add_alert st ty text).routes = st.routes := by
  unfold add_alert
  split <;> exact ⟨rfl, rfl, rfl⟩

theorem apply_alert_entity_preserves {station_routes : List String} {st st2 : Station}
    {e : AlertEntity} (h : apply_alert_entity station_routes st e = Except.ok st2) :
    st2.trainsN = st.trainsN ∧ st2.trainsS = st.trainsS ∧ st2.routes = st.routes := by
  unfold apply_alert_entity at h
  obtain ⟨t, htext, h⟩ := bind_ok_inv h
  cases t with
  | none => cases h; exact ⟨rfl, rfl, rfl⟩
  | some text =>
      replace h : (if (text == "") = true then Except.ok st
          else do
            let stops ← station_stops st
            match informed_entity_loop stops station_routes e.informed_entity with
            | some ty => Except.ok (add_alert st ty text)
            | none => Except.ok st) = Except.ok st2 := h
      by_cases hemp : (text == "") = true
      · rw [if_pos hemp] at h
        cases h
        exact ⟨rfl, rfl, rfl⟩
      · rw [if_neg hemp] at h
        obtain ⟨stops, hstops, h⟩ := bind_ok_inv h
        cases hloop : informed_entity_loop stops station_routes e.informed_entity with
        | none => rw [hloop] at h; cases h; exact ⟨rfl, rfl, rfl⟩
        | some ty =>
            rw [hloop] at h
            cases h
            exact add_alert_preserves st ty text

theorem apply_alerts_to_station_preserves {sa : List AlertEntity} {st st2 : Station}
    (h : apply_alerts_to_station sa st = Except.ok st2) :
    st2.trainsN = st.trainsN ∧ st2.trainsS = st.trainsS ∧ st2.routes = st.routes := by
  unfold apply_alerts_to_station at h
  exact foldlM_ok_induction
    (fun x => x.trainsN = st.trainsN ∧ x.trainsS = st.trainsS ∧ x.routes = st.routes)
    (fun b a b2 hb hP => by
      obtain ⟨h1, h2, h3⟩ := apply_alert_entity_preserves hb
      exact ⟨h1.trans hP.1, h2.trans hP.2.1, h3.trans hP.2.2⟩)
    sa st st2 h ⟨rfl, rfl, rfl⟩

theorem attach_alerts_mem {sa : List AlertEntity} {stations stations2 : List (String × Station)}
    (h : attach_alerts sa stations = Except.ok stations2) :
    ∀ q ∈ stations2, ∃ p ∈ stations, q.1 = p.1
      ∧ q.2.trainsN = p.2.trainsN ∧ q.2.trainsS = p.2.trainsS ∧ q.2.routes = p.2.routes := by
  intro q hq
  unfold attach_alerts at h
  obtain ⟨p, hp, hfp⟩ := mapM_ok_mem h q hq
  obtain ⟨st2, happ, hfp⟩ := bind_ok_inv hfp
  cases hfp
  obtain ⟨h1, h2, h3⟩ := apply_alerts_to_station_preserves happ
  exact ⟨p, hp, rfl, h1, h2, h3⟩

theorem lookupStation_ok_mem {stations : List (String × Station)} {id : String} {st : Station}
    (h : lookupStation stations id = Except.ok st) : (id, st) ∈ stations := by
  unfold lookupStation at h
  cases hl : List.lookup id stations with
  | none => rw [hl] at h; cases h
  | some st0 =>
      rw [hl] at h
      cases h
      exact lookup_mem hl

theorem add_train_inv {st st2 : Station} {r : String} {d : Char} {t ft : Int}
    (h : add_train st r d t ft = Except.ok st2) (hinv : trains_routes_inv st) :
    trains_routes_inv st2 := by
  simp only [add_train] at h
  split at h
  · cases h
    constructor
    · intro x hx
      cases List.mem_append.mp hx with
      | inl hx2 => exact mem_setAdd_of_mem (hinv.1 x hx2)
      | inr hx2 =>
          rw [List.mem_singleton.mp hx2]
          exact mem_setAdd_self st.routes r
    · intro x hx
      exact mem_setAdd_of_mem (hinv.2 x hx)
  · split at h
    · cases h
      constructor
      · intro x hx
        exact mem_setAdd_of_mem (hinv.1 x hx)
      · intro x hx
        cases List.mem_append.mp hx with
        | inl hx2 => exact mem_setAdd_of_mem (hinv.2 x hx2)
        | inr hx2 =>
            rw [List.mem_singleton.mp hx2]
            exact mem_setAdd_self st.routes r
    · cases h

theorem setStation_pres {stations : List (String × Station)} {id : String} {st2 : Station}
    {Q : Station → Prop} (hall : ∀ p ∈ stations, Q p.2) (hst2 : Q st2) :
    ∀ p ∈ setStation stations id st2, Q p.2 := by
  intro p hp
  unfold setStation at hp
  obtain ⟨q, hq, hqe⟩ := List.mem_map.mp hp
  split at hqe
  · rw [← hqe]
    exact hst2
  · rw [← hqe]
    exact hall q hq

theorem process_stop_step_inv {stops_to_stations : List (String × String)}
    {now max_minutes : Int} {route_id : String} {direction : Char} {feed_timestamp : Int}
    {acc acc2 : List (String × Station) × List (String × List String)} {u : StopTimeUpdate}
    (h : process_stop_step stops_to_stations now max_minutes route_id direction
        feed_timestamp acc u = Except.ok acc2)
    (hP : ∀ p ∈ acc.1, trains_routes_inv p.2) :
    ∀ p ∈ acc2.1, trains_routes_inv p.2 := by
  unfold process_stop_step at h
  cases hdec : process_stop_time_update stops_to_stations now max_minutes u with
  | none =>
      rw [hdec] at h
      cases h
      exact hP
  | some sid =>
      rw [hdec] at h
      obtain ⟨st, hlk, h⟩ := bind_ok_inv h
      obtain ⟨st2, hadd, h⟩ := bind_ok_inv h
      cases h
      exact setStation_pres hP (add_train_inv hadd (hP _ (lookupStation_ok_mem hlk)))

theorem process_trip_entity_inv {stops_to_stations : List (String × String)}
    {now max_minutes feed_timestamp : Int}
    {acc acc2 : List (String × Station) × List (String × List String)} {e : TripEntity}
    (h : process_trip_entity stops_to_stations now max_minutes feed_timestamp acc e
        = Except.ok acc2)
    (hP : ∀ p ∈ acc.1, trains_routes_inv p.2) :
    ∀ p ∈ acc2.1, trains_routes_inv p.2 := by
  simp only [process_trip_entity] at h
  split at h
  · cases h
    exact hP
  · obtain ⟨d, hdir, h⟩ := bind_ok_inv h
    exact foldlM_ok_induction (fun a => ∀ p ∈ a.1, trains_routes_inv p.2)
      (fun b a b2 hb hPb => process_stop_step_inv hb hPb)
      e.stop_time_updates acc acc2 h hP

theorem process_feed_inv {stops_to_stations : List (String × String)}
    {now max_minutes : Int}
    {acc acc2 : List (String × Station) × List (String × List String)} {feed : Option TripFeed}
    (h : process_feed stops_to_stations now max_minutes acc feed = Except.ok acc2)
    (hP : ∀ p ∈ acc.1, trains_routes_inv p.2) :
    ∀ p ∈ acc2.1, trains_routes_inv p.2 := by
  unfold process_feed at h
  cases feed with
  | none =>
      cases h
      exact hP
  | some mta_data =>
      exact foldlM_ok_induction (fun a => ∀ p ∈ a.1, trains_routes_inv p.2)
        (fun b a b2 hb hPb => process_trip_entity_inv hb hPb)
        mta_data.entity acc acc2 h hP

theorem clear_inv (stations : List (String × Station)) :
    ∀ p ∈ stations.map (fun q => (q.1, clear_train_data q.2)), trains_routes_inv p.2 := by
  intro p hp
  obtain ⟨q, hq, hqe⟩ := List.mem_map.mp hp
  rw [← hqe]
  unfold trains_routes_inv clear_train_data
  constructor <;> intro x hx <;> simp at hx

/-- Every station of a published snapshot is the alert-decorated,
sorted-and-truncated image of a station built during the train phase, whose
train lists and route set satisfy the `add_train` invariant. -/
theorem update_published_station {cfg : Config} {env : FeedEnv} {now : Int}
    {s s2 : MtapiState} (h : update cfg env now s = Except.ok s2) :
    ∀ q ∈ s2.stations, ∃ st1 : Station,
      q.2.trainsN
        = (st1.trainsN.mergeSort (fun a b => decide (a.time ≤ b.time))).take cfg.max_trains
      ∧ q.2.trainsS
        = (st1.trainsS.mergeSort (fun a b => decide (a.time ≤ b.time))).take cfg.max_trains
      ∧ q.2.routes = st1.routes
      ∧ trains_routes_inv st1 := by
  simp only [update] at h
  obtain ⟨acc, hacc, h⟩ := bind_ok_inv h
  have hinv : ∀ p ∈ acc.1, trains_routes_inv p.2 :=
    foldlM_ok_induction (fun a => ∀ p ∈ a.1, trains_routes_inv p.2)
      (fun b a b2 hb hPb => process_feed_inv hb hPb)
      env.trip_feeds _ acc hacc (clear_inv s.stations)
  split at h
  · obtain ⟨stations2, hatt, h⟩ := bind_ok_inv h
    cases h
    intro q hq
    obtain ⟨p, hp, _, h1, h2, h3⟩ := attach_alerts_mem hatt q hq
    obtain ⟨p0, hp0, hpe⟩ := List.mem_map.mp hp
    refine ⟨p0.2, ?_, ?_, ?_, hinv p0 hp0⟩
    · rw [h1, ← hpe]; rfl
    · rw [h2, ← hpe]; rfl
    · rw [h3, ← hpe]; rfl
  · rw [except_bind_ok] at h
    cases h
    intro q hq
    obtain ⟨p0, hp0, hpe⟩ := List.mem_map.mp hq
    refine ⟨p0.2, ?_, ?_, ?_, hinv p0 hp0⟩
    · rw [← hpe]; rfl
    · rw [← hpe]; rfl
    · rw [← hpe]; rfl

/-! ## C2: train lists are bounded and time-sorted after every rebuild -/

/-- C2: for every station of a published snapshot, each direction's train
list has length at most `max_trains` and is non-decreasing by predicted
time. -/
theorem C2_train_lists_sorted_and_bounded (cfg : Config) (env : FeedEnv) (now : Int)
    (s s2 : MtapiState) (h : update cfg env now s = Except.ok s2)
    (id : String) (st : Station) (hmem : (id, st) ∈ s2.stations) :
    st.trainsN.length ≤ cfg.max_trains ∧ st.trainsS.length ≤ cfg.max_trains
    ∧ List.Pairwise (fun a b : Train => a.time ≤ b.time) st.trainsN
    ∧ List.Pairwise (fun a b : Train => a.time ≤ b.time) st.trainsS := by
  obtain ⟨st1, hN, hS, _, _⟩ := update_published_station h (id, st) hmem
  have hlen : ∀ l : List Train,
      ((l.mergeSort (fun a b => decide (a.time ≤ b.time))).take cfg.max_trains).length
        ≤ cfg.max_trains := by
    intro l
    rw [List.length_take]
    exact min_le_left _ _
  have hsorted : ∀ l : List Train,
      List.Pairwise (fun a b : Train => a.time ≤ b.time)
        ((l.mergeSort (fun a b => decide (a.time ≤ b.time))).take cfg.max_trains) := by
    intro l
    have hms := @List.sorted_mergeSort Train (fun a b => decide (a.time ≤ b.time))
      (fun a b c hab hbc => by
        simp only [decide_eq_true_eq] at *
        omega)
      (fun a b => by
        simp only [Bool.or_eq_true, decide_eq_true_eq]
        omega)
      l
    have hp := List.Pairwise.sublist
      (List.take_sublist cfg.max_trains (l.mergeSort (fun a b => decide (a.time ≤ b.time)))) hms
    exact hp.imp (fun hab => by simpa using hab)
  rw [hN, hS]
  exact ⟨hlen _, hlen _, hsorted _, hsorted _⟩

unseal List.merge List.mergeSort in
theorem C2_witness :
    stationA_published.trainsN.length ≤ cfgTrunc.max_trains
    ∧ stationA_published.trainsS.length ≤ cfgTrunc.max_trains
    ∧ List.Pairwise (fun a b : Train => a.time ≤ b.time) stationA_published.trainsN
    ∧ List.Pairwise (fun a b : Train => a.time ≤ b.time) stationA_published.trainsS :=
  C2_train_lists_sorted_and_bounded cfgTrunc envTwoRoutes 0 stateA stateA_published
    (by decide) "A" stationA_published (by decide)

/-! ## C1: the station route set versus the route ids in its train lists -/

unseal List.merge List.mergeSort in
/-- C1 counterexample: the claim says that after a rebuild every station's
`routes` equals exactly the set of route ids appearing in its (sorted and
truncated) train lists.  With `max_trains = 1` and two trains on routes `A`
and `B`, truncation drops the route `B` train while `B` stays in `routes`:
in the published snapshot, `B` is in the station's `routes` but not among
the route ids of its trains. -/
theorem C1_counterexample :
    (update cfgTrunc envTwoRoutes 0 stateA).map
        (fun s2 => s2.stations.map (fun p =>
          decide ("B" ∈ p.2.routes) && !(decide ("B" ∈ get_station_routes p.2))))
      = Except.ok [true] := by decide

/-- C1 (amended): after every rebuild, each published station's `routes` is a
superset of the set of route ids appearing in its train lists (`routes` is
populated per added train before `sort_trains` truncates the lists, so the
inclusion can be strict). -/
theorem C1_routes_superset_of_train_routes (cfg : Config) (env : FeedEnv) (now : Int)
    (s s2 : MtapiState) (h : update cfg env now s = Except.ok s2)
    (id : String) (st : Station) (hmem : (id, st) ∈ s2.stations) :
    get_station_routes st ⊆ st.routes := by
  obtain ⟨st1, hN, hS, hroutes, hinv⟩ := update_published_station h (id, st) hmem
  intro r hr
  unfold get_station_routes at hr
  rw [List.mem_dedup] at hr
  obtain ⟨t, ht, hteq⟩ := List.mem_map.mp hr
  rw [hroutes, ← hteq]
  cases List.mem_append.mp ht with
  | inl htN =>
      rw [hN] at htN
      exact hinv.1 t (List.mem_mergeSort.mp (List.mem_of_mem_take htN))
  | inr htS =>
      rw [hS] at htS
      exact hinv.2 t (List.mem_mergeSort.mp (List.mem_of_mem_take htS))

unseal List.merge List.mergeSort in
theorem C1_witness :
    get_station_routes stationA_published ⊆ stationA_published.routes :=
  C1_routes_superset_of_train_routes cfgTrunc envTwoRoutes 0 stateA stateA_published
    (by decide) "A" stationA_published (by decide)

end MtapiModel
